import Mathlib

/-
Verification development for the Career-Fit Recommendation & Calibration
Engine and its surrounding frontend plumbing (Vacare-App).

The repository snapshot contains the TypeScript client declarations of the
engine's request/response boundary (brain/data-contracts.ts), the frontend
pages, the zustand assessment store, and the Firestore data loader.  The
backend engine itself (the career_recommendation module implementing
analyze_results, calibrate, optimize_weights and calibrate_scores) is not
part of the snapshot; where a property is decided by that missing code, the
definitions below are modelled from the specification and are marked as
such in their doc comments.  Everything else is embedded directly from the
TypeScript sources.
-/

/- ===================== Assessment store (frontend) ===================== -/

/-- Answer record of the assessment store (brain/data-contracts.ts):
a question id together with the rating the user chose. -/
structure Answer where
  questionId : Nat
  rating : ℚ
deriving DecidableEq

/-- AbilityAnswer record of the assessment store (brain/data-contracts.ts):
identical in shape to `Answer`. -/
structure AbilityAnswer where
  questionId : Nat
  rating : ℚ
deriving DecidableEq

/-- `setAnswer` of `useAssessmentStore` (assessment-store, interest
assessment): the stored list keeps every answer whose questionId differs
from the incoming one and appends the incoming answer at the end. -/
def setAnswer (answers : List Answer) (answer : Answer) : List Answer :=
  answers.filter (fun a => a.questionId != answer.questionId) ++ [answer]

/-- `setKnowledgeAnswer` of `useAssessmentStore`: same update as
`setAnswer`, applied to the knowledge answer list. -/
def setKnowledgeAnswer (knowledgeAnswers : List Answer) (answer : Answer) : List Answer :=
  knowledgeAnswers.filter (fun a => a.questionId != answer.questionId) ++ [answer]

/-- `setSkillAnswer` of `useAssessmentStore`: same update as `setAnswer`,
applied to the skill answer list. -/
def setSkillAnswer (skillAnswers : List Answer) (answer : Answer) : List Answer :=
  skillAnswers.filter (fun a => a.questionId != answer.questionId) ++ [answer]

/-- `setAbilityAnswer` of `useAssessmentStore`: same update as `setAnswer`,
applied to the ability answer list. -/
def setAbilityAnswer (abilityAnswers : List AbilityAnswer) (answer : AbilityAnswer) :
    List AbilityAnswer :=
  abilityAnswers.filter (fun a => a.questionId != answer.questionId) ++ [answer]

/-- Generic form of the store update shared by the four setters: remove
every entry carrying the same key, then append the new entry.  Used only
to state the proofs once; each setter is definitionally an instance. -/
def upsertByKey {α : Type} (key : α → Nat) (l : List α) (a : α) : List α :=
  l.filter (fun x => key x != key a) ++ [a]

/- ===================== Firestore data loader (frontend) ===================== -/

/-- `calculateDelay` of utils/data-loader.ts: exponential backoff with
jitter.  `r` stands for the value of Math.random(), which lies in [0,1);
real-number arithmetic is embedded as exact rational arithmetic. -/
def calculateDelay (attempt : Nat) (r : ℚ) : ℚ :=
  let baseDelay : ℚ := 500
  let maxDelay : ℚ := 16000
  let backoffMultiplier : ℚ := 2
  let jitterFactor : ℚ := 1 / 5
  let exponentialDelay := baseDelay * backoffMultiplier ^ attempt
  let cappedDelay := min exponentialDelay maxDelay
  let jitter := cappedDelay * jitterFactor * (r * 2 - 1)
  max 0 (cappedDelay + jitter)

/-- Outcome of one Firestore `getDoc` attempt: either the call succeeds and
the document exists (`ok (some d)`), succeeds with no document
(`ok none`), or the call throws (`err`). -/
inductive FetchOutcome (α : Type) where
  | ok (doc : Option α)
  | err (msg : String)
deriving DecidableEq

/-- Result of `getAssessmentWithRetry`: a resolved promise carrying the
document data (or null), or a thrown error. -/
inductive RetryResult (α : Type) where
  | success (data : Option α)
  | thrown (msg : String)
deriving DecidableEq

/-- Loop body of `getAssessmentWithRetry` (utils/data-loader.ts).
`attempt` is the current 0-indexed attempt, `remaining` the number of
retries still allowed after this one.  Returns the result together with
the number of fetch attempts actually performed. -/
def retryGo {α : Type} (outcomes : Nat → FetchOutcome α) (attempt : Nat) :
    Nat → RetryResult α × Nat
  | 0 =>
    match outcomes attempt with
    | .ok d => (.success d, 1)
    | .err m => (.thrown m, 1)
  | remaining + 1 =>
    match outcomes attempt with
    | .ok d => (.success d, 1)
    | .err _ =>
      let res := retryGo outcomes (attempt + 1) remaining
      (res.1, res.2 + 1)

/-- `getAssessmentWithRetry` of utils/data-loader.ts, with the effect of
each `getDoc` call abstracted as the `outcomes` function: the loop runs
attempts 0 .. maxRetries, returns on the first non-throwing fetch, and
rethrows the last error once all attempts have failed. -/
def getAssessmentWithRetry {α : Type} (outcomes : Nat → FetchOutcome α)
    (maxRetries : Nat) : RetryResult α × Nat :=
  retryGo outcomes 0 maxRetries

/- ===================== Boundary type field names ===================== -/

/-- Field names of the `CalibrationRequest` interface exactly as declared
in brain/data-contracts.ts (all six fields optional). -/
def calibrationRequestFieldNames : List String :=
  ["importance_percentile", "level_percentile", "top_k", "dataset_name",
   "importance_candidates", "ratio_candidates"]

/-- Field names of the `CalibrationResponse` interface exactly as declared
in brain/data-contracts.ts. -/
def calibrationResponseFieldNames : List String :=
  ["importance_critical_threshold", "min_requirement_ratio", "rules_count",
   "sample_rules", "dimension_weights", "combination_weights",
   "score_calibration"]

/-- Field names the specification prescribes for `CalibrationRequest`
(section 6 of the spec), written from the spec text for comparison with
the declaration embedded from the source. -/
def specCalibrationRequestFieldNames : List String :=
  ["importance_percentile", "level_percentile", "top_k", "dataset_name",
   "importance_candidates", "ratio_candidates"]

/-- Field names the specification prescribes for `CalibrationResponse`
(section 6 of the spec), written from the spec text for comparison with
the declaration embedded from the source. -/
def specCalibrationResponseFieldNames : List String :=
  ["importance_critical_threshold", "min_requirement_ratio", "rules_count",
   "sample_rules", "dimension_weights", "combination_weights",
   "score_calibration"]

/- ===================== Recommendation ranking ===================== -/

/-- Modelled from the spec: the `OccupationMatch` entry of a
`RecommendationResponse` (the backend career_recommendation module that
constructs and orders these per request is absent from the snapshot; the
field set follows the OccupationMatch declaration in
brain/data-contracts.ts, with the rational fields standing for the
TypeScript numbers). -/
structure OccupationMatch where
  title : String
  correlation : ℚ
  rawScore : ℚ
  calibrated : Bool
  description : Option String
deriving DecidableEq

/-- Modelled from the spec: sort key realising "ordered by correlation
descending, ties broken by raw_score then by title lexicographic order" —
negating the two numeric components turns the descending comparisons into
the ascending lexicographic order of the nested pairs. -/
def matchKey (m : OccupationMatch) : Lex (ℚ × Lex (ℚ × String)) :=
  toLex (-m.correlation, toLex (-m.rawScore, m.title))

/-- Modelled from the spec: the total ordering on matches used when a
`RecommendationResponse` is assembled. -/
def matchOrder (a b : OccupationMatch) : Prop :=
  matchKey a ≤ matchKey b

instance : DecidableRel matchOrder :=
  fun a b => inferInstanceAs (Decidable (matchKey a ≤ matchKey b))

instance : IsTotal OccupationMatch matchOrder :=
  ⟨fun a b => le_total (matchKey a) (matchKey b)⟩

instance : IsTrans OccupationMatch matchOrder :=
  ⟨fun _ _ _ hab hbc => le_trans hab hbc⟩

/-- Modelled from the spec: the ordering step of analyze_results /
analyze_multi_category — the matches of a `RecommendationResponse` are the
input matches sorted under `matchOrder`. -/
def sortMatches (l : List OccupationMatch) : List OccupationMatch :=
  List.insertionSort matchOrder l

/- ===================== Rank-sum AUC ===================== -/

/-- Modelled from the spec: one labeled validation score as consumed by
the Weight Optimizer and the Score Calibrator — a raw score with its
match/no-match label (1 = positive, 0 = negative). -/
structure LabeledScore where
  score : ℚ
  label : Nat
deriving DecidableEq

/-- Scores of the positive (label = 1) examples, in dataset order. -/
def posScores (ds : List LabeledScore) : List ℚ :=
  (ds.filter (fun s => s.label == 1)).map (fun s => s.score)

/-- Scores of the negative (label = 0) examples, in dataset order. -/
def negScores (ds : List LabeledScore) : List ℚ :=
  (ds.filter (fun s => s.label == 0)).map (fun s => s.score)

/-- Number of (positive, negative) score pairs the positive strictly wins. -/
def winCount (pos neg : List ℚ) : Nat :=
  (pos.map (fun p => (neg.filter (fun n => decide (n < p))).length)).sum

/-- Number of (positive, negative) score pairs that are exactly tied. -/
def tieCount (pos neg : List ℚ) : Nat :=
  (pos.map (fun p => (neg.filter (fun n => decide (n = p))).length)).sum

/-- Modelled from the spec: the rank-sum (Mann–Whitney) AUC estimator used
by the Weight Optimizer and Calibration Engine (their backend module is
absent from the snapshot), computed by counting wins and ties over all
positive/negative pairs. -/
def rankSumAUC (ds : List LabeledScore) : ℚ :=
  let pos := posScores ds
  let neg := negScores ds
  ((winCount pos neg : ℚ) + (tieCount pos neg : ℚ) / 2) /
    ((pos.length : ℚ) * (neg.length : ℚ))

/-- Contribution of one positive/negative pair in the spec's formula:
1 if the positive scores higher, 0.5 on a tie, 0 otherwise. -/
def pairContrib (p n : ℚ) : ℚ :=
  if n < p then 1 else if p = n then 1 / 2 else 0

/-- AUC written exactly as the specification's double sum over all
positive/negative pairs, divided by positives × negatives; stated from the
spec text for comparison with `rankSumAUC`. -/
def aucPairFormula (ds : List LabeledScore) : ℚ :=
  ((posScores ds).map (fun p => ((negScores ds).map (fun n => pairContrib p n)).sum)).sum /
    (((posScores ds).length : ℚ) * ((negScores ds).length : ℚ))

/- ===================== Score calibration ===================== -/

/-- Logistic sigmoid on the reals, as used by the Score Calibrator's
transform `calibrated = sigmoid(A·raw_score + B)`.  This definition only
supports the monotonicity lemma; every operational definition stays on
exact rational arithmetic. -/
noncomputable def sigmoid (x : ℝ) : ℝ :=
  1 / (1 + Real.exp (-x))

/-- Modelled from the spec: the dataset rescored through the affine stage
`A·score + B` of the fitted transform.  Since the sigmoid is strictly
increasing, comparisons between calibrated scores coincide with
comparisons between these affine images whenever the rank-sum estimator
consults them. -/
def calibratedScores (A B : ℚ) (ds : List LabeledScore) : List LabeledScore :=
  ds.map (fun s => ⟨A * s.score + B, s.label⟩)

/-- Modelled from the spec: `auc_after` of calibrate_scores — the rank-sum
AUC recomputed on the calibrated scores. -/
def aucAfterCalibration (A B : ℚ) (ds : List LabeledScore) : ℚ :=
  rankSumAUC (calibratedScores A B ds)

/- ===================== Combination weights ===================== -/

/-- The four self-rating categories combined by the Matching Engine. -/
inductive ProfileCategory where
  | ability
  | skill
  | knowledge
  | interest
deriving DecidableEq

/-- All categories of a complete profile. -/
def allCategories : List ProfileCategory :=
  [.ability, .skill, .knowledge, .interest]

/-- Total combination-weight mass of a complete profile. -/
def totalMass (w : ProfileCategory → ℚ) : ℚ :=
  (allCategories.map w).sum

/-- Combination-weight mass of the categories actually present in the
user profile. -/
def presentMass (w : ProfileCategory → ℚ) (present : List ProfileCategory) : ℚ :=
  (present.map w).sum

/-- Modelled from the spec: the effective combination weight the Matching
Engine applies to a category after skipping absent categories and
redistributing their mass proportionally among the present ones (the
backend module is absent from the snapshot).  Absent categories get
weight 0. -/
def effectiveWeight (w : ProfileCategory → ℚ) (present : List ProfileCategory)
    (c : ProfileCategory) : ℚ :=
  if c ∈ present then w c * (totalMass w / presentMass w present) else 0

/-- Modelled from the spec: the final raw_score — weighted sum of the
present category scores, renormalized by the weight mass actually
present. -/
def combinedRawScore (w : ProfileCategory → ℚ) (catScore : ProfileCategory → ℚ)
    (present : List ProfileCategory) : ℚ :=
  (present.map (fun c => w c * catScore c)).sum / presentMass w present

/- ===================== Validation dataset builder ===================== -/

/-- Occupation identity as the Validation Dataset Builder references it. -/
structure Occupation where
  code : Nat
  title : String
deriving DecidableEq

/-- Synthetic user profile seeded from an occupation by the builder. -/
structure UserProfile where
  ratings : List (String × ℚ)
deriving DecidableEq

/-- Modelled from the spec: one labeled (synthetic user, occupation) pair
produced by the Validation Dataset Builder, label 1 for the true
occupation and 0 for a drawn negative. -/
structure ValidationPair where
  user : UserProfile
  occupation : Occupation
  label : Nat
deriving DecidableEq

/-- Modelled from the spec: the Validation Dataset Builder (its backend
module is absent from the snapshot).  For each sampled occupation it
constructs `positivesPerOcc` synthetic users; each user yields one
positive pair with its seed occupation followed by `negativesPerPositive`
negative pairs with other occupations.  The synthetic-user construction
(top-N descriptors, noise, clamping) and the random negative draw are
abstracted as the `mkUser` and `negChoice` parameters, since the counting
properties hold for every choice of them. -/
def buildValidation (sampled : List Occupation) (positivesPerOcc negativesPerPositive : Nat)
    (mkUser : Occupation → Nat → UserProfile)
    (negChoice : Occupation → Nat → Nat → Occupation) : List ValidationPair :=
  sampled.flatMap (fun occ =>
    (List.range positivesPerOcc).flatMap (fun i =>
      ⟨mkUser occ i, occ, 1⟩ ::
        (List.range negativesPerPositive).map (fun j => ⟨mkUser occ i, negChoice occ i j, 0⟩)))

/-- Concrete corpus of 10 known occupations for the scenario check. -/
def corpus10 : List Occupation :=
  (List.range 10).map (fun i => ⟨i, "occupation"⟩)

/-- Concrete synthetic-user constructor for the scenario check. -/
def mkUserSimple (occ : Occupation) (_i : Nat) : UserProfile :=
  ⟨[("descriptor", (occ.code : ℚ))]⟩

/-- Concrete negative draw for the scenario check: cycles through the other
nine occupations, never repeating the seed occupation. -/
def negChoiceCyclic (occ : Occupation) (_i j : Nat) : Occupation :=
  ⟨(occ.code + j + 1) % 10, "occupation"⟩

/- ===================== Weight optimizer ===================== -/

/-- Error taxonomy of the engine boundary (spec section 7). -/
inductive EngineError where
  | datasetNotFound
  | insufficientValidationData
  | invalidParameter
deriving DecidableEq

/-- Modelled from the spec: the process-wide `CalibrationState` replaced
atomically by calibration and optimization runs. -/
structure CalibrationState where
  importanceCriticalThreshold : ℚ
  minRequirement : ℚ
  dimensionWeights : List (String × ℚ)
  combinationWeights : List (String × ℚ)
  calibA : ℚ
  calibB : ℚ
deriving DecidableEq

/-- Modelled from the spec: the `OptimizationResponse` boundary type
(dimension_weights, combination_weights, auc, evaluated_pairs). -/
structure OptimizationResponse where
  dimensionWeights : List (String × ℚ)
  combinationWeights : List (String × ℚ)
  auc : ℚ
  evaluatedPairs : Nat
deriving DecidableEq

/-- Modelled from the spec: the Weight Optimizer's optimize call (its
backend module is absent from the snapshot).  It counts positives and
negatives first and aborts with `insufficientValidationData` before
touching the state when either is zero; otherwise it scores every
validation pair under every candidate weight combination (the Matching
Engine being abstracted as `scorer`), keeps the combination with maximal
rank-sum AUC and swaps in the new state.  Returns the resulting state
together with the response or error. -/
def optimizeWeights (scorer : List (String × ℚ) → List (String × ℚ) → ValidationPair → ℚ)
    (st : CalibrationState) (pairs : List ValidationPair)
    (dimCands combCands : List (List (String × ℚ))) :
    CalibrationState × Except EngineError OptimizationResponse :=
  let posCount := (pairs.filter (fun pr => pr.label == 1)).length
  let negCount := (pairs.filter (fun pr => pr.label == 0)).length
  if posCount = 0 ∨ negCount = 0 then
    (st, .error .insufficientValidationData)
  else
    let dcs := if dimCands.isEmpty then [st.dimensionWeights] else dimCands
    let ccs := if combCands.isEmpty then [st.combinationWeights] else combCands
    let combos := dcs.flatMap (fun d => ccs.map (fun c => (d, c)))
    let scored := combos.map (fun dc =>
      (dc.1, dc.2, rankSumAUC (pairs.map (fun pr => ⟨scorer dc.1 dc.2 pr, pr.label⟩))))
    match scored with
    | [] => (st, .error .insufficientValidationData)
    | s0 :: rest =>
      let best := rest.foldl (fun b t => if b.2.2 < t.2.2 then t else b) s0
      ({ st with dimensionWeights := best.1, combinationWeights := best.2.1 },
        .ok ⟨best.1, best.2.1, best.2.2, posCount * negCount * combos.length⟩)

/- ===================== Request validation ===================== -/

/-- Modelled from the spec: the `CalibrationRequest` boundary type with
its optional fields and their documented defaults (75 / 65 / 20). -/
structure CalibrationRequest where
  importancePercentile : Option ℚ
  levelPercentile : Option ℚ
  topK : Option ℤ
  datasetName : Option String
  importanceCandidates : Option (List ℚ)
  ratioCandidates : Option (List ℚ)
deriving DecidableEq

/-- Modelled from the spec: the `CalibrationResponse` boundary type.  The
min_requirement_ratio field is called `minRequirement` here. -/
structure CalibrationResponse where
  importanceCriticalThreshold : ℚ
  minRequirement : ℚ
  rulesCount : Nat
  sampleRules : List String
  dimensionWeights : List (String × ℚ)
  combinationWeights : List (String × ℚ)
  scoreCalibration : List (String × ℚ)
deriving DecidableEq

/-- Modelled from the spec: the `ScoreCalibrationRequest` boundary type
with its documented defaults (learning_rate 0.01, max_iter 500). -/
structure ScoreCalibrationRequest where
  datasetName : Option String
  learningRate : Option ℚ
  maxIter : Option ℤ
deriving DecidableEq

/-- Modelled from the spec: the `ScoreCalibrationResponse` boundary type. -/
structure ScoreCalibrationResponse where
  A : ℚ
  B : ℚ
  iterations : Nat
  aucBefore : ℚ
  aucAfter : Option ℚ
  samples : Nat
deriving DecidableEq

/-- Modelled from the spec: the response calibrate_scores assembles on its
success path once the gradient-descent fit has produced a slope `A`, an
intercept `B` and an iteration count (the fitting itself runs on real
sigmoid values and is abstracted into those three outputs).  The spec has
auc_before computed on the raw scores and auc_after computed independently
on the calibrated scores, and both reported: auc_after is always
populated, even though the declared contract leaves the field optional. -/
def calibrateScoresResponse (A B : ℚ) (iterations : Nat)
    (ds : List LabeledScore) : ScoreCalibrationResponse :=
  { A := A
    B := B
    iterations := iterations
    aucBefore := rankSumAUC ds
    aucAfter := some (aucAfterCalibration A B ds)
    samples := ds.length }

/-- Modelled from the spec: validity of the numeric fields of a
calibration request — percentiles within [0,100] and top_k within
[1, cap], the cap being the deployment's upper bound on top_k. -/
def ValidCalibrationParams (cap : ℤ) (req : CalibrationRequest) : Prop :=
  0 ≤ req.importancePercentile.getD 75 ∧ req.importancePercentile.getD 75 ≤ 100 ∧
  0 ≤ req.levelPercentile.getD 65 ∧ req.levelPercentile.getD 65 ≤ 100 ∧
  1 ≤ req.topK.getD 20 ∧ req.topK.getD 20 ≤ cap

instance (cap : ℤ) (req : CalibrationRequest) : Decidable (ValidCalibrationParams cap req) := by
  unfold ValidCalibrationParams
  infer_instance

/-- Modelled from the spec: validity of the numeric fields of a score
calibration request — learning_rate strictly positive and max_iter at
least 1. -/
def ValidScoreCalibrationParams (req : ScoreCalibrationRequest) : Prop :=
  0 < req.learningRate.getD (1 / 100) ∧ 1 ≤ req.maxIter.getD 500

instance (req : ScoreCalibrationRequest) : Decidable (ValidScoreCalibrationParams req) := by
  unfold ValidScoreCalibrationParams
  infer_instance

/-- Modelled from the spec: the calibrate boundary handler — numeric
fields are validated before any computation, so the handler either rejects
with `invalidParameter` without consulting `compute`, or passes the
request on.  `compute` abstracts the whole calibration computation. -/
def handleCalibrate (cap : ℤ) (compute : CalibrationRequest → CalibrationResponse)
    (req : CalibrationRequest) : Except EngineError CalibrationResponse :=
  if ValidCalibrationParams cap req then .ok (compute req) else .error .invalidParameter

/-- Modelled from the spec: the calibrate_scores boundary handler, with
the same validate-then-compute shape. -/
def handleCalibrateScores (compute : ScoreCalibrationRequest → ScoreCalibrationResponse)
    (req : ScoreCalibrationRequest) : Except EngineError ScoreCalibrationResponse :=
  if ValidScoreCalibrationParams req then .ok (compute req) else .error .invalidParameter

/-- Concrete combination-weight assignment used to witness the weight
redistribution theorem: skills carry no weight, mirroring a profile where
that category would be dropped. -/
def weightsExample : ProfileCategory → ℚ
  | .ability => 2
  | .skill => 3
  | .knowledge => 1
  | .interest => 1

/-- Concrete per-category scores used to witness the weight
redistribution theorem. -/
def catScoresExample : ProfileCategory → ℚ
  | .ability => 80
  | .skill => 0
  | .knowledge => 50
  | .interest => 60

/- ===================== Helper lemmas ===================== -/

theorem upsertByKey_map_key_nodup {α : Type} (key : α → Nat) (l : List α) (a : α)
    (h : (l.map key).Nodup) : ((upsertByKey key l a).map key).Nodup := by
  unfold upsertByKey
  rw [List.map_append]
  apply List.Nodup.append
  · exact List.Nodup.sublist (List.Sublist.map key (List.filter_sublist l)) h
  · simp
  · intro b hb hb'
    obtain ⟨x, hx, rfl⟩ := List.mem_map.1 hb
    have hne : key x ≠ key a := by simpa using (List.mem_filter.1 hx).2
    exact hne (by simpa using hb')

theorem upsertByKey_foldl_nodup {α : Type} (key : α → Nat) (ops : List α) :
    ((ops.foldl (upsertByKey key) []).map key).Nodup := by
  suffices h : ∀ init : List α, (init.map key).Nodup →
      ((ops.foldl (upsertByKey key) init).map key).Nodup by
    exact h [] (by simp)
  induction ops with
  | nil => intro init h; simpa using h
  | cons a t ih =>
    intro init h
    exact ih _ (upsertByKey_map_key_nodup key init a h)

theorem upsertByKey_filter_eq {α : Type} (key : α → Nat) (l : List α) (a : α) :
    (upsertByKey key l a).filter (fun x => key x == key a) = [a] := by
  unfold upsertByKey
  rw [List.filter_append]
  have h1 : (l.filter (fun x => key x != key a)).filter (fun x => key x == key a) = [] := by
    induction l with
    | nil => rfl
    | cons b t ih =>
      by_cases hb : key b = key a
      · simpa [List.filter_cons, hb] using ih
      · simpa [List.filter_cons, hb] using ih
  have h2 : [a].filter (fun x => key x == key a) = [a] := by simp
  rw [h1, h2]
  rfl

theorem upsertByKey_filter_ne {α : Type} (key : α → Nat) (l : List α) (a : α) :
    (upsertByKey key l a).filter (fun x => key x != key a) =
      l.filter (fun x => key x != key a) := by
  unfold upsertByKey
  rw [List.filter_append]
  have h1 : (l.filter (fun x => key x != key a)).filter (fun x => key x != key a) =
      l.filter (fun x => key x != key a) := by
    induction l with
    | nil => rfl
    | cons b t ih =>
      by_cases hb : key b = key a
      · simpa [List.filter_cons, hb] using ih
      · simpa [List.filter_cons, hb] using ih
  have h2 : [a].filter (fun x => key x != key a) = [] := by simp
  rw [h1, h2]
  simp

theorem upsertByKey_getLast {α : Type} (key : α → Nat) (l : List α) (a : α) :
    (upsertByKey key l a).getLast? = some a := by
  unfold upsertByKey
  simp

theorem retryGo_snd_le {α : Type} (outcomes : Nat → FetchOutcome α) :
    ∀ remaining attempt, (retryGo outcomes attempt remaining).2 ≤ remaining + 1 := by
  intro remaining
  induction remaining with
  | zero =>
    intro attempt
    cases h : outcomes attempt <;> simp [retryGo, h]
  | succ r ih =>
    intro attempt
    cases h : outcomes attempt with
    | ok d => simp [retryGo, h]
    | err m =>
      have := ih (attempt + 1)
      simp only [retryGo, h]
      omega

theorem retryGo_ok_first {α : Type} (outcomes : Nat → FetchOutcome α)
    (attempt remaining : Nat) (d : Option α) (h : outcomes attempt = .ok d) :
    retryGo outcomes attempt remaining = (.success d, 1) := by
  cases remaining <;> simp [retryGo, h]

theorem retryGo_success_at {α : Type} (outcomes : Nat → FetchOutcome α) (d : Option α) :
    ∀ k remaining attempt, k ≤ remaining →
      (∀ i, i < k → ∃ s, outcomes (attempt + i) = .err s) →
      outcomes (attempt + k) = .ok d →
      retryGo outcomes attempt remaining = (.success d, k + 1) := by
  intro k
  induction k with
  | zero =>
    intro remaining attempt _ _ hok
    simpa using retryGo_ok_first outcomes attempt remaining d (by simpa using hok)
  | succ k ih =>
    intro remaining attempt hle herr hok
    obtain ⟨s, hs⟩ := herr 0 (Nat.succ_pos k)
    rw [Nat.add_zero] at hs
    obtain ⟨r, rfl⟩ : ∃ r, remaining = r + 1 := ⟨remaining - 1, by omega⟩
    have hrec := ih r (attempt + 1) (by omega)
      (fun i hi => by
        obtain ⟨t, ht⟩ := herr (i + 1) (by omega)
        exact ⟨t, by rw [show attempt + 1 + i = attempt + (i + 1) by omega]; exact ht⟩)
      (by rw [show attempt + 1 + k = attempt + (k + 1) by omega]; exact hok)
    simp [retryGo, hs, hrec]

theorem retryGo_thrown_all_err {α : Type} (outcomes : Nat → FetchOutcome α) :
    ∀ remaining attempt m, (retryGo outcomes attempt remaining).1 = .thrown m →
      (∀ i, i ≤ remaining → ∃ s, outcomes (attempt + i) = .err s) ∧
      (retryGo outcomes attempt remaining).2 = remaining + 1 := by
  intro remaining
  induction remaining with
  | zero =>
    intro attempt m h
    cases ho : outcomes attempt with
    | ok d => simp [retryGo, ho] at h
    | err s =>
      refine ⟨?_, by simp [retryGo, ho]⟩
      intro i hi
      have hi0 : i = 0 := by omega
      subst hi0
      exact ⟨s, by simpa using ho⟩
  | succ r ih =>
    intro attempt m h
    cases ho : outcomes attempt with
    | ok d => simp [retryGo, ho] at h
    | err s =>
      have h' : (retryGo outcomes (attempt + 1) r).1 = .thrown m := by
        simpa [retryGo, ho] using h
      obtain ⟨hall, hcnt⟩ := ih (attempt + 1) m h'
      constructor
      · intro i hi
        match i with
        | 0 => exact ⟨s, by simpa using ho⟩
        | j + 1 =>
          obtain ⟨t, ht⟩ := hall j (by omega)
          exact ⟨t, by rw [show attempt + (j + 1) = attempt + 1 + j by omega]; exact ht⟩
      · simp [retryGo, ho, hcnt]

theorem calculateDelay_bounds (attempt : Nat) (r : ℚ) (h0 : 0 ≤ r) (h1 : r ≤ 1) :
    0 ≤ calculateDelay attempt r ∧ calculateDelay attempt r ≤ 19200 := by
  simp only [calculateDelay]
  constructor
  · exact le_max_left 0 _
  · apply max_le (by norm_num)
    have hcle : min ((500 : ℚ) * 2 ^ attempt) 16000 ≤ 16000 := min_le_right _ _
    have hc0 : (0 : ℚ) ≤ min ((500 : ℚ) * 2 ^ attempt) 16000 :=
      le_min (by positivity) (by norm_num)
    nlinarith [mul_nonneg hc0 h0, mul_nonneg hc0 (sub_nonneg.2 h1)]

/- ===================== Claim theorems (frontend) ===================== -/

/-- Claim C8: the calibrate operation's boundary types carry exactly the
fields the specification lists — the `CalibrationRequest` declaration has
exactly the optional fields importance_percentile, level_percentile,
top_k, dataset_name, importance_candidates, ratio_candidates, and the
`CalibrationResponse` declaration exactly importance_critical_threshold,
min_requirement_ratio, rules_count, sample_rules, dimension_weights,
combination_weights, score_calibration. -/
theorem calibration_boundary_field_names :
    calibrationRequestFieldNames = specCalibrationRequestFieldNames ∧
    calibrationResponseFieldNames = specCalibrationResponseFieldNames :=
  ⟨rfl, rfl⟩

/-- Claim C9: for every sequence of setAnswer / setAbilityAnswer /
setKnowledgeAnswer / setSkillAnswer calls on the assessment store, each
stored answers list keeps at most one entry per questionId (question ids
stay pairwise distinct along any call sequence from the empty initial
list), the incoming answer replaces any entry with the same questionId
and ends up as the last element, and the sublist of entries with any
other questionId is left unchanged.  setKnowledgeAnswer and
setSkillAnswer are literally the same update as setAnswer. -/
theorem assessment_store_upsert_semantics :
    (∀ ops : List Answer, ((ops.foldl setAnswer []).map fun a => a.questionId).Nodup) ∧
    (∀ (l : List Answer) (a : Answer),
      (setAnswer l a).filter (fun x => x.questionId == a.questionId) = [a]) ∧
    (∀ (l : List Answer) (a : Answer),
      (setAnswer l a).filter (fun x => x.questionId != a.questionId) =
        l.filter (fun x => x.questionId != a.questionId)) ∧
    (∀ (l : List Answer) (a : Answer), (setAnswer l a).getLast? = some a) ∧
    setKnowledgeAnswer = setAnswer ∧
    setSkillAnswer = setAnswer ∧
    (∀ ops : List AbilityAnswer,
      ((ops.foldl setAbilityAnswer []).map fun a => a.questionId).Nodup) ∧
    (∀ (l : List AbilityAnswer) (a : AbilityAnswer),
      (setAbilityAnswer l a).filter (fun x => x.questionId == a.questionId) = [a]) ∧
    (∀ (l : List AbilityAnswer) (a : AbilityAnswer),
      (setAbilityAnswer l a).filter (fun x => x.questionId != a.questionId) =
        l.filter (fun x => x.questionId != a.questionId)) ∧
    (∀ (l : List AbilityAnswer) (a : AbilityAnswer),
      (setAbilityAnswer l a).getLast? = some a) := by
  refine ⟨?_, ?_, ?_, ?_, rfl, rfl, ?_, ?_, ?_, ?_⟩
  · exact fun ops => upsertByKey_foldl_nodup (fun a : Answer => a.questionId) ops
  · exact fun l a => upsertByKey_filter_eq (fun x : Answer => x.questionId) l a
  · exact fun l a => upsertByKey_filter_ne (fun x : Answer => x.questionId) l a
  · exact fun l a => upsertByKey_getLast (fun x : Answer => x.questionId) l a
  · exact fun ops => upsertByKey_foldl_nodup (fun a : AbilityAnswer => a.questionId) ops
  · exact fun l a => upsertByKey_filter_eq (fun x : AbilityAnswer => x.questionId) l a
  · exact fun l a => upsertByKey_filter_ne (fun x : AbilityAnswer => x.questionId) l a
  · exact fun l a => upsertByKey_getLast (fun x : AbilityAnswer => x.questionId) l a

/-- Claim C10: for every userId (abstracted into the per-attempt fetch
outcomes) and every maxRetries, getAssessmentWithRetry performs at most
maxRetries + 1 attempts; a fetch that finds no document resolves with
null (covered by the first-success clause with data `none`); the data of
the first successful fetch is returned; a throw happens only after all
maxRetries + 1 attempts failed; and every delay computed by
calculateDelay on a Math.random value in [0,1] is within [0, 19200]
milliseconds (rationals are always finite). -/
theorem retry_behavior_and_delay_bounds {α : Type} (outcomes : Nat → FetchOutcome α)
    (maxRetries : Nat) :
    (getAssessmentWithRetry outcomes maxRetries).2 ≤ maxRetries + 1 ∧
    (∀ d, outcomes 0 = .ok d → getAssessmentWithRetry outcomes maxRetries = (.success d, 1)) ∧
    (∀ k d, k ≤ maxRetries → (∀ i, i < k → ∃ s, outcomes i = .err s) →
      outcomes k = .ok d →
      getAssessmentWithRetry outcomes maxRetries = (.success d, k + 1)) ∧
    (∀ m, (getAssessmentWithRetry outcomes maxRetries).1 = .thrown m →
      (∀ i, i ≤ maxRetries → ∃ s, outcomes i = .err s) ∧
      (getAssessmentWithRetry outcomes maxRetries).2 = maxRetries + 1) ∧
    (∀ attempt r, 0 ≤ r → r ≤ 1 →
      0 ≤ calculateDelay attempt r ∧ calculateDelay attempt r ≤ 19200) := by
  refine ⟨retryGo_snd_le outcomes maxRetries 0, ?_, ?_, ?_, ?_⟩
  · intro d h
    exact retryGo_ok_first outcomes 0 maxRetries d h
  · intro k d hk herr hok
    have h := retryGo_success_at outcomes d k maxRetries 0 hk
      (fun i hi => by simpa using herr i hi) (by simpa using hok)
    simpa [getAssessmentWithRetry] using h
  · intro m h
    have h' := retryGo_thrown_all_err outcomes maxRetries 0 m h
    exact ⟨fun i hi => by simpa using h'.1 i hi, h'.2⟩
  · exact fun attempt r h0 h1 => calculateDelay_bounds attempt r h0 h1

/-- Witness for claim C10's theorem at a concrete instance: a fetch whose
first attempt finds no document resolves at once with null, and the delay
for attempt 3 with Math.random = 1/2 is within bounds. -/
theorem retry_behavior_and_delay_bounds_witness :
    getAssessmentWithRetry (fun _ => FetchOutcome.ok (none : Option Unit)) 5 =
      (RetryResult.success none, 1) ∧
    0 ≤ calculateDelay 3 (1 / 2) ∧ calculateDelay 3 (1 / 2) ≤ 19200 := by
  have h := retry_behavior_and_delay_bounds (fun _ => FetchOutcome.ok (none : Option Unit)) 5
  exact ⟨h.2.1 none rfl, (h.2.2.2.2 3 (1 / 2) (by norm_num) (by norm_num)).1,
    (h.2.2.2.2 3 (1 / 2) (by norm_num) (by norm_num)).2⟩

theorem matchOrder_iff (a b : OccupationMatch) :
    matchOrder a b ↔
      b.correlation < a.correlation ∨
        (a.correlation = b.correlation ∧
          (b.rawScore < a.rawScore ∨ (a.rawScore = b.rawScore ∧ a.title ≤ b.title))) := by
  simp [matchOrder, matchKey, Prod.Lex.le_iff, neg_lt_neg_iff, neg_inj]

/-- Claim C1: every RecommendationResponse orders its matches by
correlation descending, breaks correlation ties by raw_score (higher
first) and double ties by title in lexicographic order — formally, the
sorted match list is pairwise ordered under exactly that relation and is
a permutation of the scored matches.  Determinism for a fixed input is
immediate because `sortMatches` is a function of its argument. -/
theorem matches_sorted_by_correlation_rawscore_title (l : List OccupationMatch) :
    List.Sorted (fun a b : OccupationMatch =>
      b.correlation < a.correlation ∨
        (a.correlation = b.correlation ∧
          (b.rawScore < a.rawScore ∨ (a.rawScore = b.rawScore ∧ a.title ≤ b.title))))
      (sortMatches l) ∧
    (sortMatches l).Perm l := by
  constructor
  · exact List.Pairwise.imp (fun h => (matchOrder_iff _ _).1 h)
      (List.sorted_insertionSort matchOrder l)
  · exact List.perm_insertionSort matchOrder l

theorem contrib_row (p : ℚ) (neg : List ℚ) :
    ((neg.filter (fun n => decide (n < p))).length : ℚ) +
      ((neg.filter (fun n => decide (n = p))).length : ℚ) / 2 =
    (neg.map (fun n => pairContrib p n)).sum := by
  induction neg with
  | nil => simp
  | cons n t ih =>
    simp only [List.filter_cons, List.map_cons, List.sum_cons]
    by_cases h1 : n < p
    · have hpc : pairContrib p n = 1 := by simp [pairContrib, h1]
      simp [h1, ne_of_lt h1, hpc]
      push_cast
      linarith [ih]
    · by_cases h2 : n = p
      · subst h2
        have hpc : pairContrib n n = 1 / 2 := by simp [pairContrib]
        simp [lt_irrefl, hpc]
        push_cast
        linarith [ih]
      · have h3 : ¬(p = n) := fun h => h2 h.symm
        have hpc : pairContrib p n = 0 := by simp [pairContrib, h1, h3]
        simp [h1, h2, hpc]
        linarith [ih]

theorem win_tie_eq_contrib_sum (pos neg : List ℚ) :
    (winCount pos neg : ℚ) + (tieCount pos neg : ℚ) / 2 =
      (pos.map (fun p => (neg.map (fun n => pairContrib p n)).sum)).sum := by
  induction pos with
  | nil => simp [winCount, tieCount]
  | cons p t ih =>
    simp only [winCount, tieCount, List.map_cons, List.sum_cons] at ih ⊢
    push_cast at ih ⊢
    linarith [contrib_row p neg]

theorem pairContrib_nonneg (p n : ℚ) : 0 ≤ pairContrib p n := by
  unfold pairContrib
  split_ifs <;> norm_num

theorem pairContrib_le_one (p n : ℚ) : pairContrib p n ≤ 1 := by
  unfold pairContrib
  split_ifs <;> norm_num

theorem contrib_row_nonneg (p : ℚ) (neg : List ℚ) :
    0 ≤ (neg.map (fun n => pairContrib p n)).sum :=
  List.sum_nonneg fun x hx => by
    obtain ⟨n, _, rfl⟩ := List.mem_map.1 hx
    exact pairContrib_nonneg p n

theorem contrib_row_le (p : ℚ) (neg : List ℚ) :
    (neg.map (fun n => pairContrib p n)).sum ≤ (neg.length : ℚ) := by
  have h := List.sum_le_card_nsmul (neg.map (fun n => pairContrib p n)) 1
    (fun x hx => by obtain ⟨n, _, rfl⟩ := List.mem_map.1 hx; exact pairContrib_le_one p n)
  simpa [nsmul_eq_mul] using h

theorem contrib_total_le (pos neg : List ℚ) :
    (pos.map (fun p => (neg.map (fun n => pairContrib p n)).sum)).sum ≤
      (pos.length : ℚ) * (neg.length : ℚ) := by
  have h := List.sum_le_card_nsmul (pos.map (fun p => (neg.map (fun n => pairContrib p n)).sum))
    ((neg.length : ℚ)) (fun x hx => by
      obtain ⟨p, _, rfl⟩ := List.mem_map.1 hx
      exact contrib_row_le p neg)
  simpa [nsmul_eq_mul] using h

/-- Claim C3: for every labeled score list with at least one positive and
one negative, the rank-sum AUC computed by counting wins and ties equals
the spec's pair formula (sum over positive/negative pairs of 1 for a win
plus 0.5 for a tie, divided by positives × negatives), and the value lies
in [0,1]. -/
theorem rank_sum_auc_formula_and_bounds (ds : List LabeledScore)
    (hP : 0 < (posScores ds).length) (hN : 0 < (negScores ds).length) :
    rankSumAUC ds = aucPairFormula ds ∧ 0 ≤ rankSumAUC ds ∧ rankSumAUC ds ≤ 1 := by
  have hkey := win_tie_eq_contrib_sum (posScores ds) (negScores ds)
  have hPQ : (0 : ℚ) < ((posScores ds).length : ℚ) := by exact_mod_cast hP
  have hNQ : (0 : ℚ) < ((negScores ds).length : ℚ) := by exact_mod_cast hN
  have hPN : (0 : ℚ) < ((posScores ds).length : ℚ) * ((negScores ds).length : ℚ) :=
    mul_pos hPQ hNQ
  refine ⟨?_, ?_, ?_⟩
  · simp only [rankSumAUC, aucPairFormula]
    rw [hkey]
  · simp only [rankSumAUC]
    apply div_nonneg ?_ (le_of_lt hPN)
    positivity
  · simp only [rankSumAUC]
    rw [div_le_one hPN, hkey]
    exact contrib_total_le _ _

/-- Witness for claim C3's theorem on a concrete three-element dataset
containing a win and a tie. -/
theorem rank_sum_auc_formula_and_bounds_witness :
    0 < (posScores [⟨3, 1⟩, ⟨3, 0⟩, ⟨1, 0⟩]).length ∧
    0 < (negScores [⟨3, 1⟩, ⟨3, 0⟩, ⟨1, 0⟩]).length ∧
    (rankSumAUC [⟨3, 1⟩, ⟨3, 0⟩, ⟨1, 0⟩] = aucPairFormula [⟨3, 1⟩, ⟨3, 0⟩, ⟨1, 0⟩] ∧
      0 ≤ rankSumAUC [⟨3, 1⟩, ⟨3, 0⟩, ⟨1, 0⟩] ∧ rankSumAUC [⟨3, 1⟩, ⟨3, 0⟩, ⟨1, 0⟩] ≤ 1) :=
  ⟨by decide, by decide, rank_sum_auc_formula_and_bounds _ (by decide) (by decide)⟩

theorem sigmoid_strictMono : StrictMono sigmoid := by
  intro a b hab
  unfold sigmoid
  have h1 : Real.exp (-b) < Real.exp (-a) := Real.exp_lt_exp.2 (by linarith)
  have h2 : (0 : ℝ) < 1 + Real.exp (-b) := by positivity
  have h3 : 1 + Real.exp (-b) < 1 + Real.exp (-a) := by linarith
  exact one_div_lt_one_div_of_lt h2 h3

theorem posScores_calibrated (A B : ℚ) (ds : List LabeledScore) :
    posScores (calibratedScores A B ds) = (posScores ds).map (fun x => A * x + B) := by
  simp [posScores, calibratedScores, List.filter_map, List.map_map, Function.comp_def]

theorem negScores_calibrated (A B : ℚ) (ds : List LabeledScore) :
    negScores (calibratedScores A B ds) = (negScores ds).map (fun x => A * x + B) := by
  simp [negScores, calibratedScores, List.filter_map, List.map_map, Function.comp_def]

theorem winCount_affine (A B : ℚ) (hA : 0 < A) (pos neg : List ℚ) :
    winCount (pos.map (fun x => A * x + B)) (neg.map (fun x => A * x + B)) =
      winCount pos neg := by
  unfold winCount
  rw [List.map_map]
  apply congrArg
  apply List.map_congr_left
  intro p _
  simp only [Function.comp_apply]
  rw [List.filter_map]
  rw [List.length_map]
  apply congrArg
  apply List.filter_congr
  intro n _
  simp only [Function.comp_apply]
  apply decide_eq_decide.2
  constructor
  · intro h
    nlinarith
  · intro h
    nlinarith

theorem tieCount_affine (A B : ℚ) (hA : A ≠ 0) (pos neg : List ℚ) :
    tieCount (pos.map (fun x => A * x + B)) (neg.map (fun x => A * x + B)) =
      tieCount pos neg := by
  unfold tieCount
  rw [List.map_map]
  apply congrArg
  apply List.map_congr_left
  intro p _
  simp only [Function.comp_apply]
  rw [List.filter_map]
  rw [List.length_map]
  apply congrArg
  apply List.filter_congr
  intro n _
  simp only [Function.comp_apply]
  apply decide_eq_decide.2
  constructor
  · intro h
    have h' : A * n = A * p := by linarith
    exact mul_left_cancel₀ hA h'
  · intro h
    rw [h]

/-- Counterexample to claim C2 as stated: a fitted slope of A = −1 — a
value the spec's unconstrained gradient-descent output admits, since
nothing in the fitting procedure keeps the slope positive — makes
sigmoid(A·s+B) strictly decreasing, and on the one-positive, one-negative
dataset below the response's auc_after (0) differs from its auc_before
(1), so unconditional equality fails. -/
theorem auc_equality_fails_for_negative_slope :
    (calibrateScoresResponse (-1) 0 5 [⟨1, 1⟩, ⟨0, 0⟩]).aucAfter =
      some (aucAfterCalibration (-1) 0 [⟨1, 1⟩, ⟨0, 0⟩]) ∧
    aucAfterCalibration (-1) 0 [⟨1, 1⟩, ⟨0, 0⟩] ≠
      rankSumAUC [⟨1, 1⟩, ⟨0, 0⟩] := by
  refine ⟨rfl, ?_⟩
  have h1 : aucAfterCalibration (-1) 0 [⟨1, 1⟩, ⟨0, 0⟩] = 0 := by
    norm_num [aucAfterCalibration, calibratedScores, rankSumAUC, posScores, negScores,
      winCount, tieCount, List.filter_cons]
  have h2 : rankSumAUC [⟨1, 1⟩, ⟨0, 0⟩] = 1 := by
    norm_num [rankSumAUC, posScores, negScores, winCount, tieCount, List.filter_cons]
  rw [h1, h2]
  norm_num

/-- Claim C2 (amended): every response calibrate_scores assembles carries
both auc_before and auc_after — auc_after is always populated, with
auc_before the rank-sum AUC of the raw scores and auc_after the rank-sum
AUC recomputed independently on the calibrated scores; and auc_after
equals auc_before whenever the fitted slope A is positive, i.e., whenever
the fitted sigmoid(A·s+B) transform is strictly increasing (the logistic
sigmoid itself being strictly monotone).  For a non-positive fitted slope
the transform is not increasing and the equality can fail. -/
theorem calibrate_scores_carries_both_aucs_and_monotone_equal :
    (∀ (A B : ℚ) (iterations : Nat) (ds : List LabeledScore),
      (calibrateScoresResponse A B iterations ds).aucBefore = rankSumAUC ds ∧
      (calibrateScoresResponse A B iterations ds).aucAfter =
        some (aucAfterCalibration A B ds)) ∧
    (∀ (A B : ℚ) (ds : List LabeledScore), 0 < A →
      aucAfterCalibration A B ds = rankSumAUC ds) ∧
    StrictMono sigmoid := by
  refine ⟨fun A B iterations ds => ⟨rfl, rfl⟩, ?_, sigmoid_strictMono⟩
  intro A B ds hA
  simp only [aucAfterCalibration, rankSumAUC]
  rw [posScores_calibrated, negScores_calibrated, winCount_affine A B hA,
    tieCount_affine A B (ne_of_gt hA), List.length_map, List.length_map]

/-- Witness for claim C2's amended theorem: a concrete response carries
both AUC fields, and the transform with the positive slope A = 2 (B = 3)
leaves the AUC of a concrete dataset unchanged. -/
theorem calibrate_scores_carries_both_aucs_witness :
    ((calibrateScoresResponse 2 3 7 [⟨4, 1⟩, ⟨4, 0⟩, ⟨1, 0⟩]).aucBefore =
        rankSumAUC [⟨4, 1⟩, ⟨4, 0⟩, ⟨1, 0⟩] ∧
      (calibrateScoresResponse 2 3 7 [⟨4, 1⟩, ⟨4, 0⟩, ⟨1, 0⟩]).aucAfter =
        some (aucAfterCalibration 2 3 [⟨4, 1⟩, ⟨4, 0⟩, ⟨1, 0⟩])) ∧
    0 < (2 : ℚ) ∧
    aucAfterCalibration 2 3 [⟨4, 1⟩, ⟨4, 0⟩, ⟨1, 0⟩] =
      rankSumAUC [⟨4, 1⟩, ⟨4, 0⟩, ⟨1, 0⟩] :=
  ⟨calibrate_scores_carries_both_aucs_and_monotone_equal.1 2 3 7 _,
   by norm_num,
   calibrate_scores_carries_both_aucs_and_monotone_equal.2.1 2 3 _ (by norm_num)⟩

theorem flatMap_const_length {ι β : Type} (g : ι → List β) (c : Nat)
    (hg : ∀ i, (g i).length = c) :
    ∀ I : List ι, (I.flatMap g).length = I.length * c := by
  intro I
  induction I with
  | nil => simp
  | cons i t ih =>
    simp only [List.flatMap_cons, List.length_append, List.length_cons, ih, hg]
    rw [Nat.succ_mul]
    omega

theorem flatMap_const_filter_length {ι β : Type} (g : ι → List β) (q : β → Bool) (c : Nat)
    (hg : ∀ i, ((g i).filter q).length = c) :
    ∀ I : List ι, ((I.flatMap g).filter q).length = I.length * c := by
  intro I
  induction I with
  | nil => simp
  | cons i t ih =>
    simp only [List.flatMap_cons, List.filter_append, List.length_append, List.length_cons, ih, hg]
    rw [Nat.succ_mul]
    omega

theorem negs_filter_one (u : UserProfile) (mk : Nat → Occupation) (J : List Nat) :
    (J.map (fun j => (⟨u, mk j, 0⟩ : ValidationPair))).filter (fun v => v.label == 1) = [] := by
  induction J with
  | nil => rfl
  | cons j t ih => simp [List.filter_cons, ih]

theorem negs_filter_zero (u : UserProfile) (mk : Nat → Occupation) (J : List Nat) :
    (J.map (fun j => (⟨u, mk j, 0⟩ : ValidationPair))).filter (fun v => v.label == 0) =
      J.map (fun j => (⟨u, mk j, 0⟩ : ValidationPair)) := by
  induction J with
  | nil => rfl
  | cons j t ih => simp [List.filter_cons, ih]

/-- Claim C4: the Validation Dataset Builder returns exactly
sample_occupations × positives_per_occupation × (1 + negatives_per_positive)
pairs — one positive plus the drawn negatives per synthetic user — with
sample_occupations × positives_per_occupation of them labeled 1 and the
rest labeled 0, for every synthetic-user constructor and negative draw; in
particular the 10-occupation scenario with one positive and three
negatives per occupation yields 40 pairs, 10 positive and 30 negative. -/
theorem validation_dataset_size_and_label_counts :
    (∀ (sampled : List Occupation) (p n : Nat)
       (mkUser : Occupation → Nat → UserProfile)
       (negChoice : Occupation → Nat → Nat → Occupation),
      (buildValidation sampled p n mkUser negChoice).length = sampled.length * (p * (1 + n)) ∧
      ((buildValidation sampled p n mkUser negChoice).filter
        (fun v => v.label == 1)).length = sampled.length * p ∧
      ((buildValidation sampled p n mkUser negChoice).filter
        (fun v => v.label == 0)).length = sampled.length * (p * n)) ∧
    (buildValidation corpus10 1 3 mkUserSimple negChoiceCyclic).length = 40 ∧
    ((buildValidation corpus10 1 3 mkUserSimple negChoiceCyclic).filter
      (fun v => v.label == 1)).length = 10 ∧
    ((buildValidation corpus10 1 3 mkUserSimple negChoiceCyclic).filter
      (fun v => v.label == 0)).length = 30 := by
  have hgen : ∀ (sampled : List Occupation) (p n : Nat)
      (mkUser : Occupation → Nat → UserProfile)
      (negChoice : Occupation → Nat → Nat → Occupation),
      (buildValidation sampled p n mkUser negChoice).length = sampled.length * (p * (1 + n)) ∧
      ((buildValidation sampled p n mkUser negChoice).filter
        (fun v => v.label == 1)).length = sampled.length * p ∧
      ((buildValidation sampled p n mkUser negChoice).filter
        (fun v => v.label == 0)).length = sampled.length * (p * n) := by
    intro sampled p n mkUser negChoice
    refine ⟨?_, ?_, ?_⟩
    · apply flatMap_const_length
      intro occ
      have hin := flatMap_const_length
        (fun i => (⟨mkUser occ i, occ, 1⟩ : ValidationPair) ::
          (List.range n).map (fun j => ⟨mkUser occ i, negChoice occ i j, 0⟩))
        (1 + n) (fun i => by simp; omega) (List.range p)
      simpa using hin
    · apply flatMap_const_filter_length
      intro occ
      have hin := flatMap_const_filter_length
        (fun i => (⟨mkUser occ i, occ, 1⟩ : ValidationPair) ::
          (List.range n).map (fun j => ⟨mkUser occ i, negChoice occ i j, 0⟩))
        (fun v => v.label == 1) 1
        (fun i => by simp [List.filter_cons, negs_filter_one]) (List.range p)
      simpa using hin
    · apply flatMap_const_filter_length
      intro occ
      have hin := flatMap_const_filter_length
        (fun i => (⟨mkUser occ i, occ, 1⟩ : ValidationPair) ::
          (List.range n).map (fun j => ⟨mkUser occ i, negChoice occ i j, 0⟩))
        (fun v => v.label == 0) n
        (fun i => by simp [List.filter_cons, negs_filter_zero]) (List.range p)
      simpa using hin
  refine ⟨hgen, ?_, ?_, ?_⟩
  · rw [(hgen corpus10 1 3 mkUserSimple negChoiceCyclic).1]
    simp [corpus10]
  · rw [(hgen corpus10 1 3 mkUserSimple negChoiceCyclic).2.1]
    simp [corpus10]
  · rw [(hgen corpus10 1 3 mkUserSimple negChoiceCyclic).2.2]
    simp [corpus10]

/-- Claim C5: when some categories are absent from the user profile, the
Matching Engine's proportional redistribution makes the effective
combination weights of the present categories sum to the full mass of a
complete profile, and the weighted combination actually applied equals
those effective weights normalized by that same total mass. -/
theorem weight_redistribution_preserves_mass (w : ProfileCategory → ℚ)
    (catScore : ProfileCategory → ℚ) (present : List ProfileCategory)
    (hw : ∀ c, 0 ≤ w c) (hS : presentMass w present ≠ 0) :
    (present.map (effectiveWeight w present)).sum = totalMass w ∧
    (present.map (fun c => effectiveWeight w present c * catScore c)).sum =
      totalMass w * combinedRawScore w catScore present := by
  have hmap : present.map (effectiveWeight w present) =
      present.map (fun c => w c * (totalMass w / presentMass w present)) :=
    List.map_congr_left (fun c hc => by simp [effectiveWeight, hc])
  have hmap2 : present.map (fun c => effectiveWeight w present c * catScore c) =
      present.map (fun c => (w c * catScore c) * (totalMass w / presentMass w present)) :=
    List.map_congr_left (fun c hc => by simp [effectiveWeight, hc]; ring)
  constructor
  · rw [hmap, List.sum_map_mul_right]
    show presentMass w present * (totalMass w / presentMass w present) = totalMass w
    rw [mul_comm, div_mul_cancel₀ _ hS]
  · rw [hmap2, List.sum_map_mul_right]
    unfold combinedRawScore
    ring

/-- Witness for claim C5's theorem: a profile missing the skill and
interest categories still gets effective weights summing to the complete
mass 7. -/
theorem weight_redistribution_preserves_mass_witness :
    (∀ c, 0 ≤ weightsExample c) ∧
    presentMass weightsExample [ProfileCategory.ability, ProfileCategory.knowledge] ≠ 0 ∧
    (([ProfileCategory.ability, ProfileCategory.knowledge].map
        (effectiveWeight weightsExample
          [ProfileCategory.ability, ProfileCategory.knowledge])).sum =
      totalMass weightsExample ∧
    ([ProfileCategory.ability, ProfileCategory.knowledge].map
        (fun c => effectiveWeight weightsExample
          [ProfileCategory.ability, ProfileCategory.knowledge] c * catScoresExample c)).sum =
      totalMass weightsExample *
        combinedRawScore weightsExample catScoresExample
          [ProfileCategory.ability, ProfileCategory.knowledge]) :=
  ⟨fun c => by cases c <;> norm_num [weightsExample],
   by norm_num [presentMass, weightsExample],
   weight_redistribution_preserves_mass weightsExample catScoresExample
     [ProfileCategory.ability, ProfileCategory.knowledge]
     (fun c => by cases c <;> norm_num [weightsExample])
     (by norm_num [presentMass, weightsExample])⟩

/-- Claim C6: a validation dataset with zero positives or zero negatives
makes the Weight Optimizer abort with InsufficientValidationData, leaving
the calibration state exactly as it was and returning no AUC-carrying
response whatsoever. -/
theorem optimize_insufficient_data_aborts
    (scorer : List (String × ℚ) → List (String × ℚ) → ValidationPair → ℚ)
    (st : CalibrationState) (pairs : List ValidationPair)
    (dimCands combCands : List (List (String × ℚ)))
    (h : (pairs.filter (fun pr => pr.label == 1)).length = 0 ∨
         (pairs.filter (fun pr => pr.label == 0)).length = 0) :
    optimizeWeights scorer st pairs dimCands combCands =
      (st, .error .insufficientValidationData) ∧
    ∀ resp, (optimizeWeights scorer st pairs dimCands combCands).2 ≠ .ok resp := by
  have h1 : optimizeWeights scorer st pairs dimCands combCands =
      (st, .error .insufficientValidationData) := by
    simp only [optimizeWeights]
    rw [if_pos h]
  refine ⟨h1, ?_⟩
  intro resp hresp
  rw [h1] at hresp
  simp at hresp

/-- Witness for claim C6's theorem: the empty dataset has zero positives,
and the optimizer returns the untouched state with the error. -/
theorem optimize_insufficient_data_aborts_witness :
    (([] : List ValidationPair).filter (fun pr => pr.label == 1)).length = 0 ∧
    optimizeWeights (fun _ _ _ => 0) ⟨70, 1 / 2, [], [], 1, 0⟩ [] [] [] =
      (⟨70, 1 / 2, [], [], 1, 0⟩, .error .insufficientValidationData) :=
  ⟨rfl, (optimize_insufficient_data_aborts (fun _ _ _ => 0) ⟨70, 1 / 2, [], [], 1, 0⟩ [] [] []
    (Or.inl rfl)).1⟩

/-- Claim C7: numeric request fields are validated before any
computation — a present percentile outside [0,100], a top_k below 1 or
above the cap, a learning_rate at most 0 or a max_iter below 1 makes the
handler answer InvalidParameter for every possible compute function, so
no computation can have been consulted. -/
theorem invalid_parameters_rejected_before_computation (cap : ℤ) :
    (∀ (compute : CalibrationRequest → CalibrationResponse) (req : CalibrationRequest),
      ((∃ p, req.importancePercentile = some p ∧ (p < 0 ∨ 100 < p)) ∨
       (∃ p, req.levelPercentile = some p ∧ (p < 0 ∨ 100 < p)) ∨
       (∃ k, req.topK = some k ∧ (k < 1 ∨ cap < k))) →
      handleCalibrate cap compute req = .error .invalidParameter) ∧
    (∀ (compute : ScoreCalibrationRequest → ScoreCalibrationResponse)
       (req : ScoreCalibrationRequest),
      ((∃ r, req.learningRate = some r ∧ r ≤ 0) ∨
       (∃ m, req.maxIter = some m ∧ m < 1)) →
      handleCalibrateScores compute req = .error .invalidParameter) := by
  constructor
  · intro compute req h
    unfold handleCalibrate
    rw [if_neg]
    intro hv
    unfold ValidCalibrationParams at hv
    obtain ⟨h1, h2, h3, h4, h5, h6⟩ := hv
    rcases h with ⟨p, hp, hbad⟩ | ⟨p, hp, hbad⟩ | ⟨k, hk, hbad⟩
    · rw [hp] at h1 h2
      simp only [Option.getD_some] at h1 h2
      rcases hbad with hb | hb <;> linarith
    · rw [hp] at h3 h4
      simp only [Option.getD_some] at h3 h4
      rcases hbad with hb | hb <;> linarith
    · rw [hk] at h5 h6
      simp only [Option.getD_some] at h5 h6
      rcases hbad with hb | hb <;> omega
  · intro compute req h
    unfold handleCalibrateScores
    rw [if_neg]
    intro hv
    unfold ValidScoreCalibrationParams at hv
    obtain ⟨h1, h2⟩ := hv
    rcases h with ⟨r, hr, hbad⟩ | ⟨m, hm, hbad⟩
    · rw [hr] at h1
      simp only [Option.getD_some] at h1
      linarith
    · rw [hm] at h2
      simp only [Option.getD_some] at h2
      omega

/-- Witness for claim C7's theorem: an importance percentile of 150 and a
learning rate of 0 are both rejected with InvalidParameter, whatever the
compute functions would have produced. -/
theorem invalid_parameters_rejected_before_computation_witness :
    handleCalibrate 100 (fun _ => ⟨0, 0, 0, [], [], [], []⟩)
      ⟨some 150, none, none, none, none, none⟩ = .error .invalidParameter ∧
    handleCalibrateScores (fun _ => ⟨0, 0, 0, 0, none, 0⟩)
      ⟨none, some 0, none⟩ = .error .invalidParameter :=
  ⟨(invalid_parameters_rejected_before_computation 100).1 _ _
      (Or.inl ⟨150, rfl, Or.inr (by norm_num)⟩),
   (invalid_parameters_rejected_before_computation 100).2 _ _
      (Or.inl ⟨0, rfl, le_refl 0⟩)⟩
